import Mathlib

set_option maxHeartbeats 1000000
set_option maxRecDepth 100000

/- Shallow embedding of src/build.js.  The source file contains two copies of
   the build script; we call the first copy (placeholder images, display URLs,
   generic-description filtering, inline-image scan) "variant A" and the second
   copy (empty-image fallback, description display) "variant B".  JavaScript
   strings are modelled as Lean `String` values and the JS string operations
   used by the script are defined below on the underlying character lists.
   JS `.length`, `.substring` count UTF-16 code units; the model counts code
   points, which agrees on all characters below U+10000. -/

/-- Apostrophe character (used inside the HTML templates and escape table). -/
def aposChar : Char := Char.ofNat 39

/-- One-character string holding an apostrophe. -/
def aposStr : String := ⟨[aposChar]⟩

/-- Characters matched by the JavaScript regexp class `\s` (and removed by
`String.prototype.trim`): ASCII whitespace, NBSP, and the Unicode space
separators. -/
def jsWhitespaceB (c : Char) : Bool :=
  c.toNat == 9 || c.toNat == 10 || c.toNat == 11 || c.toNat == 12 || c.toNat == 13
  || c.toNat == 32 || c.toNat == 160 || c.toNat == 5760
  || (8192 ≤ c.toNat && c.toNat ≤ 8202)
  || c.toNat == 8232 || c.toNat == 8233 || c.toNat == 8239 || c.toNat == 8287
  || c.toNat == 12288 || c.toNat == 65279

/-- JavaScript regexp word character class `\w`: ASCII letters `A`-`Z` and
`a`-`z`, digits `0`-`9`, and underscore (code point 95). -/
def wordCharB (c : Char) : Bool :=
  (65 ≤ c.toNat && c.toNat ≤ 90) || (97 ≤ c.toNat && c.toNat ≤ 122)
  || (48 ≤ c.toNat && c.toNat ≤ 57) || c.toNat == 95

/-- JavaScript `String.prototype.toLowerCase`, restricted to the ASCII range.
Full Unicode lowercasing agrees with this on every character that the slugify
pipeline can keep (the `\w` class is ASCII-only). -/
def jsToLower (c : Char) : Char :=
  if 65 ≤ c.toNat && c.toNat ≤ 90 then Char.ofNat (c.toNat + 32) else c

/-- Prefix test on character lists. -/
def isPre : List Char → List Char → Bool
  | [], _ => true
  | _ :: _, [] => false
  | p :: ps, c :: cs => p == c && isPre ps cs

/-- Index of the first occurrence of `pat` in `l`, if any. -/
def findSub (l pat : List Char) : Option Nat :=
  if isPre pat l then some 0
  else
    match l with
    | [] => none
    | _ :: t => (findSub t pat).map (· + 1)

/-- Substring containment on character lists. -/
def hasSub (l pat : List Char) : Bool := (findSub l pat).isSome

/-- JavaScript `String.prototype.startsWith`. -/
def jsStartsWith (s p : String) : Bool := isPre p.data s.data

/-- JavaScript `String.prototype.endsWith`. -/
def jsEndsWith (s p : String) : Bool := isPre p.data.reverse s.data.reverse

/-- JavaScript `String.prototype.includes`. -/
def jsIncludes (s sub : String) : Bool := hasSub s.data sub.data

/-- JavaScript `String.prototype.replace` with a plain-string pattern: it
replaces only the first occurrence. -/
def jsReplaceFirst (s pat rep : String) : String :=
  match findSub s.data pat.data with
  | none => s
  | some i => ⟨s.data.take i ++ rep.data ++ s.data.drop (i + pat.data.length)⟩

/-- JavaScript `a || b` on strings: the empty string is falsy. -/
def jsOr (a b : String) : String := if a = "" then b else a

/-- JavaScript `String.prototype.length` (code points, see header note). -/
def jsLen (s : String) : Nat := s.data.length

/-- JavaScript `String.prototype.substring(0, n)`. -/
def jsSubstrTo (s : String) (n : Nat) : String := ⟨s.data.take n⟩

/-- Leading-whitespace strip on character lists. -/
def trimLeftList (l : List Char) : List Char := l.dropWhile jsWhitespaceB

/-- JavaScript `String.prototype.trim` on character lists. -/
def trimList (l : List Char) : List Char :=
  ((l.dropWhile jsWhitespaceB).reverse.dropWhile jsWhitespaceB).reverse

/-- JavaScript `String.prototype.trim`. -/
def jsTrim (s : String) : String := ⟨trimList s.data⟩

/-- Helper of `collapseRuns`; the flag records whether the previous character
belonged to a run being replaced. -/
def collapseRunsAux (p : Char → Bool) (rep : Char) : Bool → List Char → List Char
  | _, [] => []
  | inRun, c :: cs =>
    if p c then
      if inRun then collapseRunsAux p rep true cs
      else rep :: collapseRunsAux p rep true cs
    else c :: collapseRunsAux p rep false cs

/-- Global regexp replacement of maximal runs of characters satisfying `p` by
the single character `rep` (used for the whitespace-run and hyphen-run
replacements in slugify). -/
def collapseRuns (p : Char → Bool) (rep : Char) (l : List Char) : List Char :=
  collapseRunsAux p rep false l

/-- slugify from src/build.js (identical in both variants): lower-case, strip
characters outside `\w`, whitespace and hyphen, replace whitespace runs by a
single hyphen, collapse hyphen runs, then `trim()` (which strips only
whitespace). -/
def slugify (s : String) : String :=
  ⟨trimList (collapseRuns (fun c => c == '-') '-'
    (collapseRuns jsWhitespaceB '-'
      ((s.data.map jsToLower).filter (fun c => wordCharB c || jsWhitespaceB c || c == '-'))))⟩

/-- Per-character replacement table of escapeHtml. -/
def escChar (c : Char) : List Char :=
  if c = '&' then ['&', 'a', 'm', 'p', ';']
  else if c = '<' then ['&', 'l', 't', ';']
  else if c = '>' then ['&', 'g', 't', ';']
  else if c = '"' then ['&', 'q', 'u', 'o', 't', ';']
  else if c = aposChar then ['&', '#', '0', '3', '9', ';']
  else [c]

/-- escapeHtml from src/build.js (identical in both variants): global
replacement of each character in `[&<>"']` by its entity. -/
def escapeHtml (s : String) : String := ⟨s.data.flatMap escChar⟩

example : slugify "Hello  World!" = "hello-world" := by decide
example : slugify "-a" = "-a" := by decide
example : slugify "Tools!" = "tools" := by decide
example : escapeHtml "a<b>" = "a&lt;b&gt;" := by decide
example : jsReplaceFirst "www.xwww.y" "www." "" = "xwww.y" := by decide
example : jsTrim "  a b  " = "a b" := by decide
example : jsSubstrTo "abcdef" 3 = "abc" := by decide
example : jsIncludes "https://youtube.com/w" "youtube.com" = true := by decide
example : jsEndsWith "abc..." "..." = true := by decide

/-- Character predicate describing slugify's output alphabet: lowercase ASCII
letters, digits, underscore, hyphen. -/
def slugChar (c : Char) : Bool :=
  (97 ≤ c.toNat && c.toNat ≤ 122) || (48 ≤ c.toNat && c.toNat ≤ 57)
  || c.toNat == 95 || c.toNat == 45

lemma charOfNat_toNat {n : Nat} (h : n < 55296) : (Char.ofNat n).toNat = n := by
  have hv : n.isValidChar := Or.inl h
  simp only [Char.ofNat, hv, dif_pos, Char.ofNatAux, Char.toNat]
  rfl

lemma jsToLower_not_upper (c : Char) :
    ¬(65 ≤ (jsToLower c).toNat ∧ (jsToLower c).toNat ≤ 90) := by
  unfold jsToLower
  split
  next h =>
    simp only [Bool.and_eq_true, decide_eq_true_eq] at h
    have h2 : c.toNat + 32 < 55296 := by omega
    rw [charOfNat_toNat h2]
    omega
  next h =>
    simp only [Bool.and_eq_true, decide_eq_true_eq, not_and, not_le] at h
    omega

lemma jsToLower_eq_self_of_not_upper (c : Char)
    (h : ¬(65 ≤ c.toNat ∧ c.toNat ≤ 90)) : jsToLower c = c := by
  unfold jsToLower
  split
  next hb => simp only [Bool.and_eq_true, decide_eq_true_eq] at hb; exact absurd hb h
  next hb => rfl

lemma mem_collapseRunsAux {p : Char → Bool} {rep c : Char} :
    ∀ {fl : Bool} {l : List Char}, c ∈ collapseRunsAux p rep fl l →
      c = rep ∨ (c ∈ l ∧ p c = false) := by
  intro fl l
  induction l generalizing fl with
  | nil => intro h; simp [collapseRunsAux] at h
  | cons a t ih =>
    intro h
    simp only [collapseRunsAux] at h
    split at h
    · split at h
      · rcases ih h with h1 | ⟨h2, h3⟩
        · exact Or.inl h1
        · exact Or.inr ⟨List.mem_cons_of_mem a h2, h3⟩
      · rcases List.mem_cons.mp h with h1 | h1
        · exact Or.inl h1
        · rcases ih h1 with h2 | ⟨h3, h4⟩
          · exact Or.inl h2
          · exact Or.inr ⟨List.mem_cons_of_mem a h3, h4⟩
    · next hp =>
      rcases List.mem_cons.mp h with h1 | h1
      · exact Or.inr ⟨h1 ▸ List.mem_cons_self a t, h1 ▸ eq_false_of_ne_true (h1 ▸ hp)⟩
      · rcases ih h1 with h2 | ⟨h3, h4⟩
        · exact Or.inl h2
        · exact Or.inr ⟨List.mem_cons_of_mem a h3, h4⟩

lemma mem_collapseRuns {p : Char → Bool} {rep c : Char} {l : List Char}
    (h : c ∈ collapseRuns p rep l) : c = rep ∨ (c ∈ l ∧ p c = false) :=
  mem_collapseRunsAux h

lemma mem_trimList {c : Char} {l : List Char} (h : c ∈ trimList l) : c ∈ l := by
  unfold trimList at h
  rw [List.mem_reverse] at h
  have h1 := (List.dropWhile_sublist jsWhitespaceB).mem h
  rw [List.mem_reverse] at h1
  exact (List.dropWhile_sublist jsWhitespaceB).mem h1

lemma slugify_chars (s : String) : ∀ c ∈ (slugify s).data, slugChar c = true := by
  intro c hc
  have h1 : c ∈ (collapseRuns (fun c => c == '-') '-'
      (collapseRuns jsWhitespaceB '-'
        ((s.data.map jsToLower).filter
          (fun c => wordCharB c || jsWhitespaceB c || c == '-')))) := mem_trimList hc
  rcases mem_collapseRuns h1 with h2 | ⟨h2, hnd⟩
  · subst h2; rfl
  rcases mem_collapseRuns h2 with h3 | ⟨h3, _⟩
  · subst h3; rfl
  rw [List.mem_filter] at h3
  obtain ⟨h4, h5⟩ := h3
  rw [List.mem_map] at h4
  obtain ⟨a, _, ha⟩ := h4
  have hupper : ¬(65 ≤ c.toNat ∧ c.toNat ≤ 90) := ha ▸ jsToLower_not_upper a
  have hnw : jsWhitespaceB c = false := by
    rcases mem_collapseRuns h2 with hx | ⟨_, hx⟩
    · subst hx; rfl
    · exact hx
  rw [hnw, hnd] at h5
  simp only [Bool.or_false] at h5
  simp only [wordCharB, Bool.or_eq_true, Bool.and_eq_true, decide_eq_true_eq,
    beq_iff_eq] at h5
  simp only [slugChar, Bool.or_eq_true, Bool.and_eq_true, decide_eq_true_eq, beq_iff_eq]
  omega

/-- No two adjacent hyphens in a character list. -/
def noDDash : List Char → Bool
  | [] => true
  | [_] => true
  | a :: b :: t => !(a == '-' && b == '-') && noDDash (b :: t)

lemma noDDash_cons_nil (a : Char) : noDDash [a] = true := rfl

lemma noDDash_cons_cons (a b : Char) (t : List Char) :
    noDDash (a :: b :: t) = (!(a == '-' && b == '-') && noDDash (b :: t)) := rfl

lemma noDDash_tail {a : Char} {l : List Char} (h : noDDash (a :: l) = true) :
    noDDash l = true := by
  cases l with
  | nil => rfl
  | cons b t => rw [noDDash_cons_cons, Bool.and_eq_true] at h; exact h.2

lemma noDDash_cons_of_head {a : Char} {l : List Char}
    (hh : ∀ x, l.head? = some x → (x == '-') = false)
    (hl : noDDash l = true) : noDDash (a :: l) = true := by
  cases l with
  | nil => rfl
  | cons b t =>
    rw [noDDash_cons_cons, Bool.and_eq_true]
    refine ⟨?_, hl⟩
    rw [hh b rfl]
    simp

lemma noDDash_cons_of_not_dash {a : Char} {l : List Char}
    (ha : (a == '-') = false) (hl : noDDash l = true) : noDDash (a :: l) = true := by
  cases l with
  | nil => rfl
  | cons b t =>
    rw [noDDash_cons_cons, Bool.and_eq_true]
    exact ⟨by rw [ha]; simp, hl⟩

lemma head_collapseRunsAux_true {l : List Char} {x : Char}
    (h : (collapseRunsAux (fun c => c == '-') '-' true l).head? = some x) :
    (x == '-') = false := by
  induction l with
  | nil => simp [collapseRunsAux] at h
  | cons a t ih =>
    simp only [collapseRunsAux] at h
    split at h
    · exact ih h
    · next hp =>
      simp only [List.head?_cons, Option.some.injEq] at h
      exact h ▸ eq_false_of_ne_true hp

lemma noDDash_collapseRunsAux :
    ∀ (fl : Bool) (l : List Char),
      noDDash (collapseRunsAux (fun c => c == '-') '-' fl l) = true := by
  intro fl l
  induction l generalizing fl with
  | nil => rfl
  | cons a t ih =>
    simp only [collapseRunsAux]
    split
    · split
      · exact ih true
      · exact noDDash_cons_of_head (fun x hx => head_collapseRunsAux_true hx) (ih true)
    · next hp => exact noDDash_cons_of_not_dash (eq_false_of_ne_true hp) (ih false)

lemma noDDash_collapseRuns (l : List Char) :
    noDDash (collapseRuns (fun c => c == '-') '-' l) = true :=
  noDDash_collapseRunsAux false l

lemma collapseRunsAux_id_of_no_p {p : Char → Bool} {rep : Char} :
    ∀ (fl : Bool) (l : List Char), (∀ c ∈ l, p c = false) →
      collapseRunsAux p rep fl l = l := by
  intro fl l
  induction l generalizing fl with
  | nil => intro _; rfl
  | cons a t ih =>
    intro h
    simp only [collapseRunsAux]
    rw [h a (List.mem_cons_self a t)]
    simp only [if_false, Bool.false_eq_true]
    rw [ih false (fun c hc => h c (List.mem_cons_of_mem a hc))]

lemma collapseRunsAux_id_of_noDDash :
    ∀ (l : List Char), noDDash l = true →
      (collapseRunsAux (fun c => c == '-') '-' false l = l ∧
       ((∀ x, l.head? = some x → (x == '-') = false) →
        collapseRunsAux (fun c => c == '-') '-' true l = l)) := by
  intro l
  induction l with
  | nil => intro _; exact ⟨rfl, fun _ => rfl⟩
  | cons a t ih =>
    intro h
    have ht := noDDash_tail h
    obtain ⟨ihf, iht⟩ := ih ht
    constructor
    · simp only [collapseRunsAux]
      split
      · next hp =>
        have hhead : ∀ x, t.head? = some x → (x == '-') = false := by
          intro x hx
          cases t with
          | nil => simp at hx
          | cons b u =>
            simp only [List.head?_cons, Option.some.injEq] at hx
            rw [noDDash_cons_cons, Bool.and_eq_true] at h
            have := h.1
            rw [hp] at this
            simp only [Bool.true_and, Bool.not_eq_true', hx] at this
            exact this
        rw [iht hhead]
        have ha : a = '-' := by simpa using hp
        rw [ha]
        simp
      · rw [ihf]
    · intro hh
      simp only [collapseRunsAux]
      have hp : (a == '-') = false := hh a rfl
      rw [hp]
      simp only [if_false, Bool.false_eq_true]
      rw [ihf]

lemma dropWhile_id_of_none {p : Char → Bool} {l : List Char}
    (h : ∀ c ∈ l, p c = false) : l.dropWhile p = l := by
  cases l with
  | nil => rfl
  | cons a t =>
    rw [List.dropWhile_cons, h a (List.mem_cons_self a t)]
    simp

lemma trimList_id_of_no_ws {l : List Char}
    (h : ∀ c ∈ l, jsWhitespaceB c = false) : trimList l = l := by
  unfold trimList
  rw [dropWhile_id_of_none h]
  rw [dropWhile_id_of_none (fun c hc => h c (List.mem_reverse.mp hc))]
  exact List.reverse_reverse l

lemma slugChar_not_ws {c : Char} (h : slugChar c = true) : jsWhitespaceB c = false := by
  simp only [slugChar, Bool.or_eq_true, Bool.and_eq_true, decide_eq_true_eq,
    beq_iff_eq] at h
  simp only [jsWhitespaceB, Bool.or_eq_false_iff, Bool.and_eq_false_iff,
    beq_eq_false_iff_ne, ne_eq, decide_eq_false_iff_not, not_le]
  omega

lemma char_eq_of_toNat {c d : Char} (h : c.toNat = d.toNat) : c = d := by
  apply Char.ext
  apply UInt32.ext
  exact h

lemma slugChar_keep {c : Char} (h : slugChar c = true) :
    (wordCharB c || jsWhitespaceB c || c == '-') = true := by
  simp only [slugChar, Bool.or_eq_true, Bool.and_eq_true, decide_eq_true_eq,
    beq_iff_eq] at h
  simp only [wordCharB, Bool.or_eq_true, Bool.and_eq_true, decide_eq_true_eq, beq_iff_eq]
  rcases h with ((h | h) | h) | h
  · exact Or.inl (Or.inl (Or.inl (Or.inl (Or.inr h))))
  · exact Or.inl (Or.inl (Or.inl (Or.inr h)))
  · exact Or.inl (Or.inl (Or.inr h))
  · exact Or.inr (char_eq_of_toNat (d := '-') h)

lemma slugChar_toLower_id {c : Char} (h : slugChar c = true) : jsToLower c = c := by
  apply jsToLower_eq_self_of_not_upper
  simp only [slugChar, Bool.or_eq_true, Bool.and_eq_true, decide_eq_true_eq,
    beq_iff_eq] at h
  omega

lemma map_id_of_fix {f : Char → Char} {l : List Char} (h : ∀ c ∈ l, f c = c) :
    l.map f = l := by
  induction l with
  | nil => rfl
  | cons a t ih =>
    simp only [List.map_cons, h a (List.mem_cons_self a t),
      ih (fun c hc => h c (List.mem_cons_of_mem a hc))]

lemma slugify_data (s : String) :
    (slugify s).data = trimList (collapseRuns (fun c => c == '-') '-'
      (collapseRuns jsWhitespaceB '-'
        ((s.data.map jsToLower).filter
          (fun c => wordCharB c || jsWhitespaceB c || c == '-')))) := rfl

lemma slugify_trim_vacuous (s : String) :
    (slugify s).data = collapseRuns (fun c => c == '-') '-'
      (collapseRuns jsWhitespaceB '-'
        ((s.data.map jsToLower).filter
          (fun c => wordCharB c || jsWhitespaceB c || c == '-'))) := by
  rw [slugify_data]
  apply trimList_id_of_no_ws
  intro c hc
  rcases mem_collapseRuns hc with h | ⟨h, _⟩
  · subst h; rfl
  rcases mem_collapseRuns h with h2 | ⟨_, h2⟩
  · subst h2; rfl
  · exact h2

lemma slugify_noDDash (s : String) : noDDash (slugify s).data = true := by
  rw [slugify_trim_vacuous]
  exact noDDash_collapseRuns _

/-- C6 (amended): every character of `slugify s` is a lowercase word character
(lowercase ASCII letter, digit, underscore) or a hyphen; however, contrary to
the original claim, leading and trailing hyphens are not removed, because the
final `trim()` strips only whitespace and no whitespace survives the
whitespace-to-hyphen replacement. -/
theorem slugify_chars_only (s : String) : (slugify s).data.all slugChar = true := by
  rw [List.all_eq_true]
  exact slugify_chars s

/-- C6 (counterexample): `slugify "-a"` keeps its leading hyphen, refuting the
claim that slugify output has no leading or trailing hyphens. -/
theorem slugify_leading_hyphen_cex :
    slugify "-a" = "-a" ∧ (slugify "-a").data.head? = some '-' := by
  constructor
  · decide
  · decide

/-- C8 (confirmed): slugify is idempotent. -/
theorem slugify_idem (x : String) : slugify (slugify x) = slugify x := by
  have hslug : ∀ c ∈ (slugify x).data, slugChar c = true := slugify_chars x
  have hnws : ∀ c ∈ (slugify x).data, jsWhitespaceB c = false :=
    fun c hc => slugChar_not_ws (hslug c hc)
  have h1 : (slugify x).data.map jsToLower = (slugify x).data :=
    map_id_of_fix (fun c hc => slugChar_toLower_id (hslug c hc))
  have h2 : ((slugify x).data).filter (fun c => wordCharB c || jsWhitespaceB c || c == '-')
      = (slugify x).data :=
    List.filter_eq_self.mpr (fun c hc => slugChar_keep (hslug c hc))
  have h3 : collapseRuns jsWhitespaceB '-' (slugify x).data = (slugify x).data :=
    collapseRunsAux_id_of_no_p false _ hnws
  have h4 : collapseRuns (fun c => c == '-') '-' (slugify x).data = (slugify x).data :=
    (collapseRunsAux_id_of_noDDash _ (slugify_noDDash x)).1
  calc slugify (slugify x)
      = ⟨trimList (collapseRuns (fun c => c == '-') '-' (collapseRuns jsWhitespaceB '-'
          (((slugify x).data.map jsToLower).filter
            (fun c => wordCharB c || jsWhitespaceB c || c == '-'))))⟩ := rfl
    _ = slugify x := by
        rw [h1, h2, h3, h4, trimList_id_of_no_ws hnws]

/-- Recognizes the tail of one of the five entities produced by escapeHtml
(after the leading ampersand). -/
def entityFollows (l : List Char) : Bool :=
  isPre "amp;".data l || isPre "lt;".data l || isPre "gt;".data l
  || isPre "quot;".data l || isPre "#039;".data l

/-- Every ampersand in the list begins one of escapeHtml's five entities. -/
def ampOkB : List Char → Bool
  | [] => true
  | c :: cs => (if c = '&' then entityFollows cs else true) && ampOkB cs

lemma amp_escChar (c : Char) (rest : List Char) :
    ampOkB (escChar c ++ rest) = ampOkB rest := by
  by_cases h1 : c = '&'
  · subst h1; simp [escChar, ampOkB, entityFollows, isPre]
  by_cases h2 : c = '<'
  · subst h2; simp [escChar, ampOkB, entityFollows, isPre]
  by_cases h3 : c = '>'
  · subst h3; simp [escChar, ampOkB, entityFollows, isPre]
  by_cases h4 : c = '"'
  · subst h4; simp [escChar, ampOkB, entityFollows, isPre]
  by_cases h5 : c = aposChar
  · subst h5; simp [escChar, ampOkB, entityFollows, isPre, aposChar]
  · simp [escChar, ampOkB, h1, h2, h3, h4, h5]

lemma escChar_no_bad {c x : Char} (h : x ∈ escChar c) :
    (x == '<' || x == '>' || x == '"' || x == aposChar) = false := by
  by_cases h1 : c = '&'
  · subst h1; fin_cases h <;> decide
  by_cases h2 : c = '<'
  · subst h2; fin_cases h <;> decide
  by_cases h3 : c = '>'
  · subst h3; fin_cases h <;> decide
  by_cases h4 : c = '"'
  · subst h4; fin_cases h <;> decide
  by_cases h5 : c = aposChar
  · subst h5; fin_cases h <;> decide
  · simp [escChar, h1, h2, h3, h4, h5] at h
    subst h
    simp only [Bool.or_eq_false_iff, beq_eq_false_iff_ne, ne_eq]
    exact ⟨⟨⟨h2, h3⟩, h4⟩, h5⟩

lemma flatMap_escChar_no_bad (l : List Char) :
    ((l.flatMap escChar).all
      (fun c => !(c == '<' || c == '>' || c == '"' || c == aposChar))) = true := by
  induction l with
  | nil => rfl
  | cons a t ih =>
    rw [List.flatMap_cons, List.all_append, Bool.and_eq_true]
    refine ⟨?_, ih⟩
    rw [List.all_eq_true]
    intro x hx
    rw [Bool.not_eq_true', escChar_no_bad hx]

lemma flatMap_escChar_ampOk (l : List Char) :
    ampOkB (l.flatMap escChar) = true := by
  induction l with
  | nil => rfl
  | cons a t ih =>
    rw [List.flatMap_cons, amp_escChar, ih]

/-- C10 (confirmed): escapeHtml output never contains a literal less-than,
greater-than, double-quote or apostrophe character, and every ampersand in the
output starts one of the five escape entities, so escaped text cannot
terminate or open an HTML tag or attribute. -/
theorem escapeHtml_safe (s : String) :
    ((escapeHtml s).data.all
      (fun c => !(c == '<' || c == '>' || c == '"' || c == aposChar))) = true ∧
    ampOkB (escapeHtml s).data = true :=
  ⟨flatMap_escChar_no_bad s.data, flatMap_escChar_ampOk s.data⟩

/-- Parsed URL components, as produced by the WHATWG URL constructor for
http(s) URLs. -/
structure URLParts where
  protocol : String
  hostname : String
deriving DecidableEq, Repr

/-- Origin of a parsed URL (no userinfo or port is modelled). -/
def URLParts.origin (u : URLParts) : String := u.protocol ++ "//" ++ u.hostname

/-- Modelled from the spec: the source calls the WHATWG `new URL(url)`
constructor (an external library, not part of this repository); modelled here
for http/https URLs without userinfo or port.  The hostname is the text
between the scheme and the first slash, query, fragment or port separator;
an empty or space-containing hostname makes the constructor throw, modelled
as `none`; non-http(s) schemes do not occur in this program's inputs. -/
def parseURL (s : String) : Option URLParts :=
  let core : List Char → Option String := fun rest =>
    let host := rest.takeWhile (fun c => !(c == '/') && !(c == '?') && !(c == '#') && !(c == ':'))
    if host.isEmpty || host.any (fun c => c == ' ') then none else some ⟨host⟩
  if jsStartsWith s "https://" then (core (s.data.drop 8)).map (fun h => ⟨"https:", h⟩)
  else if jsStartsWith s "http://" then (core (s.data.drop 7)).map (fun h => ⟨"http:", h⟩)
  else none

example : parseURL "https://example.com/x" = some ⟨"https:", "example.com"⟩ := by decide
example : parseURL "https://" = none := by decide
example : parseURL "http://www.example.com" = some ⟨"http:", "www.example.com"⟩ := by decide

/-- Metadata record for one link (the object literal returned by
scrapeMetadata). -/
structure LinkMetadata where
  url : String
  title : String
  description : String
  image : String
  success : Bool
deriving DecidableEq, Repr

/-- One `img` element as seen by the variant-A inline-image scan: the four
attributes the code reads (absent attribute = `none`). -/
structure Img where
  src : Option String
  dataSrc : Option String
  width : Option String
  height : Option String
deriving DecidableEq, Repr

/-- Extraction results of the HTML parse of a fetched page: the content of
each meta tag the code queries (empty string when absent, matching the falsy
treatment of missing attributes), the document title text, and the list of
inline `img` elements (variant A only). -/
structure Page where
  ogTitle : String
  twitterTitle : String
  docTitle : String
  ogDescription : String
  twitterDescription : String
  metaDescription : String
  ogImage : String
  twitterImage : String
  images : List Img
deriving DecidableEq, Repr

/-- Outcome of the `fetch` call: an exception (network error, timeout, or the
thrown `HTTP <status>` error for a non-2xx response), or a parsed body. -/
inductive FetchOutcome where
  | fetchError
  | page (p : Page)
deriving DecidableEq, Repr

/-- Leading decimal-digit value of a character list, if any digits. -/
def digitsVal (l : List Char) : Option Nat :=
  let ds := l.takeWhile Char.isDigit
  if ds.isEmpty then none
  else some (ds.foldl (fun a c => a * 10 + (c.toNat - 48)) 0)

/-- JavaScript `parseInt` on a decimal numeral: skip leading whitespace, read
an optional sign and leading digits; `none` models NaN. -/
def jsParseInt (s : String) : Option Int :=
  match s.data.dropWhile jsWhitespaceB with
  | '-' :: rest => (digitsVal rest).map (fun n => -(n : Int))
  | '+' :: rest => (digitsVal rest).map (fun n => (n : Int))
  | l => (digitsVal l).map (fun n => (n : Int))

/-- JavaScript `parseInt(attr) || 0`: an absent attribute or NaN gives 0. -/
def jsParseIntOr0 (o : Option String) : Int :=
  match o with
  | none => 0
  | some s => match jsParseInt s with
    | none => 0
    | some n => n

/-- JavaScript `img.attr('src') || img.attr('data-src')`: `undefined` and the
empty string are both falsy. -/
def imgSrc (img : Img) : Option String :=
  match img.src with
  | some s => if s = "" then img.dataSrc else some s
  | none => img.dataSrc

/-- Hexadecimal digit (uppercase, as produced by encodeURIComponent). -/
def toHexDigit (n : Nat) : Char := Char.ofNat (if n < 10 then 48 + n else 55 + n)

/-- UTF-8 bytes of a code point. -/
def utf8Bytes (n : Nat) : List Nat :=
  if n < 128 then [n]
  else if n < 2048 then [192 + n / 64, 128 + n % 64]
  else if n < 65536 then [224 + n / 4096, 128 + (n / 64) % 64, 128 + n % 64]
  else [240 + n / 262144, 128 + (n / 4096) % 64, 128 + (n / 64) % 64, 128 + n % 64]

/-- Percent-encoding of one byte. -/
def pctByte (b : Nat) : List Char := ['%', toHexDigit (b / 16), toHexDigit (b % 16)]

/-- Characters that encodeURIComponent leaves unescaped. -/
def encSafe (c : Char) : Bool :=
  c.isAlphanum || c == '-' || c == '_' || c == '.' || c == '!' || c == '~'
  || c == '*' || c == aposChar || c == '(' || c == ')'

/-- JavaScript `encodeURIComponent` (an external builtin): percent-encodes the
UTF-8 bytes of every character outside the unreserved set. -/
def encodeURIComponent (s : String) : String :=
  ⟨s.data.flatMap (fun c => if encSafe c then [c] else (utf8Bytes c.toNat).flatMap pctByte)⟩

example : encodeURIComponent "example.com" = "example.com" := by decide
example : encodeURIComponent "a b" = "a%20b" := by decide

/-- Generic phrases checked by isGenericDescription (variant A). -/
def genericPhrases : List String :=
  ["enjoy the videos and music you love",
   "share it all with friends",
   "youtube",
   "upload original content",
   "share videos with friends, family, and the world"]

/-- Whole-string ASCII lower-casing (JS `toLowerCase`; the phrases compared
against are ASCII). -/
def jsToLowerStr (s : String) : String := ⟨s.data.map jsToLower⟩

/-- isGenericDescription from variant A of src/build.js. -/
def isGenericDescription (description url : String) : Bool :=
  if description = "" then true
  else
    let lowerDesc := jsToLowerStr description
    if jsIncludes url "youtube.com"
        && genericPhrases.any (fun phrase => jsIncludes lowerDesc phrase) then true
    else if jsLen description < 10 then true
    else false

/-- findFirstImage from variant A of src/build.js: scan the page's `img`
elements; skip ones without a source, ones explicitly sized under 100px, and
ones whose source mentions icon/logo/avatar; absolutize and force https on
the first survivor. -/
def findFirstImage : List Img → URLParts → Option String
  | [], _ => none
  | img :: rest, u =>
    match imgSrc img with
    | none => findFirstImage rest u
    | some s =>
      if s = "" then findFirstImage rest u
      else
        let width := jsParseIntOr0 img.width
        let height := jsParseIntOr0 img.height
        if 0 < width && 0 < height && (width < 100 || height < 100) then
          findFirstImage rest u
        else if jsIncludes s "icon" || jsIncludes s "logo" || jsIncludes s "avatar" then
          findFirstImage rest u
        else
          let s1 :=
            if jsStartsWith s "//" then "https:" ++ s
            else if jsStartsWith s "/" then u.origin ++ s
            else if !jsStartsWith s "http" then u.origin ++ "/" ++ s
            else s
          some (if jsStartsWith s1 "http://" then jsReplaceFirst s1 "http://" "https://" else s1)

/-- Image normalization of variant A (the absolutize and force-https steps of
the first copy's scrapeMetadata): a non-empty reference not starting with
"http" is absolutized against the page URL (whose parse can throw), then a
leading "http://" is rewritten to "https://".  `none` models the JS null
returned by a failed inline-image scan. -/
def normalizeImageA (url : String) (image : Option String) : Except Unit (Option String) :=
  let step1 : Except Unit (Option String) :=
    match image with
    | some s =>
      if s ≠ "" && !jsStartsWith s "http" then
        match parseURL url with
        | none => .error ()
        | some u =>
          .ok (some (if jsStartsWith s "//" then "https:" ++ s
            else if jsStartsWith s "/" then u.origin ++ s
            else u.origin ++ "/" ++ s))
      else .ok image
    | none => .ok image
  match step1 with
  | .error e => .error e
  | .ok image1 =>
    .ok (match image1 with
      | some s =>
        if s ≠ "" && jsStartsWith s "http://" then some (jsReplaceFirst s "http://" "https://")
        else image1
      | none => image1)

/-- Image normalization of variant B (the absolutize step of the second
copy's scrapeMetadata): protocol-relative references are prefixed with the
page URL's protocol, and there is no force-https step. -/
def normalizeImageB (url image : String) : Except Unit String :=
  if image ≠ "" && !jsStartsWith image "http" then
    match parseURL url with
    | none => .error ()
    | some u =>
      .ok (if jsStartsWith image "//" then u.protocol ++ image
        else if jsStartsWith image "/" then u.origin ++ image
        else u.origin ++ "/" ++ image)
  else .ok image

/-- Placeholder image URL used by variant A. -/
def placeholderImage (hostname : String) : String :=
  "https://via.placeholder.com/400x200/f5f5f5/666666?text=" ++ encodeURIComponent hostname

/-- Title fallback chain of scrapeMetadata (both variants): the first
non-empty of og:title, twitter:title, document title, hostname.  The hostname
comes from `new URL(url)`, which is evaluated lazily (only when the first
three are empty) and throws on a malformed URL. -/
def titleStep (url : String) (p : Page) : Except Unit String :=
  if p.ogTitle ≠ "" then .ok p.ogTitle
  else if p.twitterTitle ≠ "" then .ok p.twitterTitle
  else if p.docTitle ≠ "" then .ok p.docTitle
  else
    match parseURL url with
    | none => .error ()
    | some u => .ok u.hostname

/-- Description fallback chain of scrapeMetadata (both variants). -/
def descChain (p : Page) : String :=
  jsOr p.ogDescription (jsOr p.twitterDescription (jsOr p.metaDescription ""))

/-- Image fallback chain of scrapeMetadata (both variants): og:image, then
twitter:image, then empty. -/
def imageChain (p : Page) : String := jsOr p.ogImage (jsOr p.twitterImage "")

/-- Body of the `try` block of variant A's scrapeMetadata, given the parsed
fetch response: field extraction with fallback chains, inline-image scan,
image absolutization and placeholder, generic-description filtering and
truncation.  `Except.error` models an exception inside the `try` (only
`new URL(url)` can throw here). -/
def scrapeTryA (url : String) (p : Page) : Except Unit LinkMetadata :=
  match titleStep url p with
  | .error e => .error e
  | .ok title =>
    let description := descChain p
    let image0 := imageChain p
    let image1E : Except Unit (Option String) :=
      if image0 = "" then
        match parseURL url with
        | none => .error ()
        | some u => .ok (findFirstImage p.images u)
      else .ok (some image0)
    match image1E with
    | .error e => .error e
    | .ok image1 =>
      match normalizeImageA url image1 with
      | .error e => .error e
      | .ok image2 =>
        let image3E : Except Unit String :=
          match image2 with
          | some s =>
            if s = "" then
              match parseURL url with
              | none => .error ()
              | some u => .ok (placeholderImage (jsReplaceFirst u.hostname "www." ""))
            else .ok s
          | none =>
            match parseURL url with
            | none => .error ()
            | some u => .ok (placeholderImage (jsReplaceFirst u.hostname "www." ""))
        match image3E with
        | .error e => .error e
        | .ok image3 =>
          let description1 := if isGenericDescription description url then "" else description
          let description2 :=
            if description1 ≠ "" && 200 < jsLen description1 then
              jsSubstrTo description1 200 ++ "..."
            else description1
          .ok { url := url, title := jsTrim title, description := jsTrim description2,
                image := image3, success := true }

/-- scrapeMetadata from variant A of src/build.js, as a function of the URL
and the fetch outcome.  An `Except.error` result models an exception
escaping scrapeMetadata (possible because the `catch` block itself calls
`new URL(url)`, which throws on a malformed URL). -/
def scrapeA (url : String) (o : FetchOutcome) : Except Unit LinkMetadata :=
  let attempt : Except Unit LinkMetadata :=
    match o with
    | .fetchError => .error ()
    | .page p => scrapeTryA url p
  match attempt with
  | .ok m => .ok m
  | .error _ =>
    match parseURL url with
    | none => .error ()
    | some u =>
      let hostname := jsReplaceFirst u.hostname "www." ""
      .ok { url := url, title := hostname, description := "",
            image := placeholderImage hostname, success := false }

/-- Body of the `try` block of variant B's scrapeMetadata. -/
def scrapeTryB (url : String) (p : Page) : Except Unit LinkMetadata :=
  match titleStep url p with
  | .error e => .error e
  | .ok title =>
    let description := descChain p
    let image0 := imageChain p
    match normalizeImageB url image0 with
    | .error e => .error e
    | .ok image =>
      let description2 :=
        if 200 < jsLen description then jsSubstrTo description 200 ++ "..." else description
      .ok { url := url, title := jsTrim title, description := jsTrim description2,
            image := image, success := true }

/-- scrapeMetadata from variant B of src/build.js. -/
def scrapeB (url : String) (o : FetchOutcome) : Except Unit LinkMetadata :=
  let attempt : Except Unit LinkMetadata :=
    match o with
    | .fetchError => .error ()
    | .page p => scrapeTryB url p
  match attempt with
  | .ok m => .ok m
  | .error _ =>
    match parseURL url with
    | none => .error ()
    | some u =>
      .ok { url := url, title := u.hostname, description := "", image := "", success := false }

instance exceptDecEq {e a : Type} [DecidableEq e] [DecidableEq a] :
    DecidableEq (Except e a) := fun x y =>
  match x, y with
  | .ok v, .ok w => if h : v = w then .isTrue (by rw [h]) else .isFalse (by simp [h])
  | .error v, .error w => if h : v = w then .isTrue (by rw [h]) else .isFalse (by simp [h])
  | .ok _, .error _ => .isFalse (by simp)
  | .error _, .ok _ => .isFalse (by simp)

/-- Empty page (no metadata, no images), for concrete evaluations. -/
def emptyPage : Page :=
  { ogTitle := "", twitterTitle := "", docTitle := "", ogDescription := "",
    twitterDescription := "", metaDescription := "", ogImage := "",
    twitterImage := "", images := [] }

example : scrapeB "https://example.com" .fetchError =
    .ok { url := "https://example.com", title := "example.com", description := "",
          image := "", success := false } := by decide
example : scrapeA "https://www.example.com" .fetchError =
    .ok { url := "https://www.example.com", title := "example.com", description := "",
          image := "https://via.placeholder.com/400x200/f5f5f5/666666?text=example.com",
          success := false } := by decide
example : scrapeA "https://" .fetchError = .error () := by decide
example : scrapeA "https://example.com" (.page { emptyPage with ogTitle := "Hi" }) =
    .ok { url := "https://example.com", title := "Hi", description := "",
          image := "https://via.placeholder.com/400x200/f5f5f5/666666?text=example.com",
          success := true } := by decide

/-- C2 (code_bug): scrapeMetadata does not always degrade to a fallback
record.  For the malformed URL "https://" (which the parser would accept,
since the line starts with "https://"), the fetch fails, and the `catch`
block's own `new URL(url)` call throws again, so the exception escapes
scrapeMetadata in both variants; for well-formed URLs the promised fallback
record is produced (variant A additionally strips "www." from the
hostname). -/
theorem scrapeMetadata_raises_on_malformed_url :
    scrapeA "https://" .fetchError = .error () ∧
    scrapeB "https://" .fetchError = .error () ∧
    scrapeA "https://www.example.com" .fetchError =
      .ok { url := "https://www.example.com", title := "example.com", description := "",
            image := "https://via.placeholder.com/400x200/f5f5f5/666666?text=example.com",
            success := false } ∧
    scrapeB "https://example.com" .fetchError =
      .ok { url := "https://example.com", title := "example.com", description := "",
            image := "", success := false } := by
  refine ⟨by decide, by decide, by decide, by decide⟩

lemma titleStep_of_parse {url : String} {u : URLParts} (p : Page)
    (hu : parseURL url = some u) :
    titleStep url p = .ok (jsOr p.ogTitle (jsOr p.twitterTitle (jsOr p.docTitle u.hostname))) := by
  unfold titleStep jsOr
  rw [hu]
  by_cases h1 : p.ogTitle = "" <;> by_cases h2 : p.twitterTitle = "" <;>
    by_cases h3 : p.docTitle = "" <;> simp [h1, h2, h3]

/-- Value of the title fallback chain when the page URL parses. -/
def scrapedTitle (p : Page) (u : URLParts) : String :=
  jsOr p.ogTitle (jsOr p.twitterTitle (jsOr p.docTitle u.hostname))

/-- Pure form of normalizeImageA when the page URL parses. -/
def normImagePureA (u : URLParts) (image : Option String) : Option String :=
  let image1 : Option String :=
    match image with
    | some s =>
      if s ≠ "" && !jsStartsWith s "http" then
        some (if jsStartsWith s "//" then "https:" ++ s
          else if jsStartsWith s "/" then u.origin ++ s
          else u.origin ++ "/" ++ s)
      else image
    | none => image
  match image1 with
  | some s =>
    if s ≠ "" && jsStartsWith s "http://" then some (jsReplaceFirst s "http://" "https://")
    else image1
  | none => image1

/-- Pure form of normalizeImageB when the page URL parses. -/
def normImagePureB (u : URLParts) (image : String) : String :=
  if image ≠ "" && !jsStartsWith image "http" then
    (if jsStartsWith image "//" then u.protocol ++ image
     else if jsStartsWith image "/" then u.origin ++ image
     else u.origin ++ "/" ++ image)
  else image

lemma normalizeImageA_of_parse {url : String} {u : URLParts}
    (hu : parseURL url = some u) (image : Option String) :
    normalizeImageA url image = .ok (normImagePureA u image) := by
  unfold normalizeImageA normImagePureA
  cases image with
  | none => rfl
  | some s =>
    by_cases hc : (s ≠ "" && !jsStartsWith s "http") = true
    · simp only [hc, if_true, hu]
    · simp only [Bool.not_eq_true] at hc
      simp only [hc]
      simp

lemma normalizeImageB_of_parse {url : String} {u : URLParts}
    (hu : parseURL url = some u) (image : String) :
    normalizeImageB url image = .ok (normImagePureB u image) := by
  unfold normalizeImageB normImagePureB
  by_cases hc : (image ≠ "" && !jsStartsWith image "http") = true
  · simp only [hc, if_true, hu]
  · simp only [Bool.not_eq_true] at hc
    simp only [hc]
    simp

/-- Image field produced by variant A's try block when the page URL parses. -/
def imageResultA (p : Page) (u : URLParts) : String :=
  let image1 : Option String :=
    if imageChain p = "" then findFirstImage p.images u else some (imageChain p)
  match normImagePureA u image1 with
  | some s =>
    if s = "" then placeholderImage (jsReplaceFirst u.hostname "www." "") else s
  | none => placeholderImage (jsReplaceFirst u.hostname "www." "")

/-- Description field produced by variant A's try block. -/
def descResultA (p : Page) (url : String) : String :=
  let description1 := if isGenericDescription (descChain p) url then "" else descChain p
  jsTrim (if description1 ≠ "" && 200 < jsLen description1 then
    jsSubstrTo description1 200 ++ "..." else description1)

/-- Description field produced by variant B's try block. -/
def descResultB (p : Page) : String :=
  jsTrim (if 200 < jsLen (descChain p) then
    jsSubstrTo (descChain p) 200 ++ "..." else descChain p)

lemma scrapeTryA_eval {url : String} {u : URLParts} (p : Page)
    (hu : parseURL url = some u) :
    scrapeTryA url p =
      .ok { url := url, title := jsTrim (scrapedTitle p u),
            description := descResultA p url, image := imageResultA p u,
            success := true } := by
  unfold scrapeTryA
  rw [titleStep_of_parse p hu]
  simp only [hu, normalizeImageA_of_parse hu]
  by_cases himg : imageChain p = ""
  · cases hni : normImagePureA u (findFirstImage p.images u) with
    | none => simp [imageResultA, descResultA, scrapedTitle, himg, hni]
    | some s =>
      by_cases hs : s = "" <;>
        simp [imageResultA, descResultA, scrapedTitle, himg, hni, hs]
  · cases hni : normImagePureA u (some (imageChain p)) with
    | none => simp [imageResultA, descResultA, scrapedTitle, himg, hni]
    | some s =>
      by_cases hs : s = "" <;>
        simp [imageResultA, descResultA, scrapedTitle, himg, hni, hs]

lemma scrapeTryB_eval {url : String} {u : URLParts} (p : Page)
    (hu : parseURL url = some u) :
    scrapeTryB url p =
      .ok { url := url, title := jsTrim (scrapedTitle p u),
            description := descResultB p, image := normImagePureB u (imageChain p),
            success := true } := by
  unfold scrapeTryB
  rw [titleStep_of_parse p hu]
  simp only [normalizeImageB_of_parse hu]
  rfl

lemma scrapeA_page_eval {url : String} {u : URLParts} (p : Page)
    (hu : parseURL url = some u) :
    scrapeA url (.page p) =
      .ok { url := url, title := jsTrim (scrapedTitle p u),
            description := descResultA p url, image := imageResultA p u,
            success := true } := by
  unfold scrapeA
  simp only [scrapeTryA_eval p hu]

lemma scrapeB_page_eval {url : String} {u : URLParts} (p : Page)
    (hu : parseURL url = some u) :
    scrapeB url (.page p) =
      .ok { url := url, title := jsTrim (scrapedTitle p u),
            description := descResultB p, image := normImagePureB u (imageChain p),
            success := true } := by
  unfold scrapeB
  simp only [scrapeTryB_eval p hu]

lemma scrapeA_fetchError_eval {url : String} {u : URLParts}
    (hu : parseURL url = some u) :
    scrapeA url .fetchError =
      .ok { url := url, title := jsReplaceFirst u.hostname "www." "",
            description := "",
            image := placeholderImage (jsReplaceFirst u.hostname "www." ""),
            success := false } := by
  unfold scrapeA
  simp only [hu]

lemma scrapeB_fetchError_eval {url : String} {u : URLParts}
    (hu : parseURL url = some u) :
    scrapeB url .fetchError =
      .ok { url := url, title := u.hostname, description := "", image := "",
            success := false } := by
  unfold scrapeB
  simp only [hu]

lemma mem_dropWhile_of_not_p {p : Char → Bool} {c : Char} {l : List Char}
    (hc : c ∈ l) (hp : p c = false) : c ∈ l.dropWhile p := by
  induction l with
  | nil => cases hc
  | cons a t ih =>
    rw [List.dropWhile_cons]
    rcases List.mem_cons.mp hc with h | h
    · subst h
      rw [hp]
      simp
    · split
      · exact ih h
      · exact List.mem_cons_of_mem a h

lemma trimList_ne_nil {l : List Char} {c : Char} (hc : c ∈ l)
    (hp : jsWhitespaceB c = false) : trimList l ≠ [] := by
  unfold trimList
  intro hnil
  have h1 : c ∈ l.dropWhile jsWhitespaceB := mem_dropWhile_of_not_p hc hp
  have h2 : c ∈ (l.dropWhile jsWhitespaceB).reverse := List.mem_reverse.mpr h1
  have h3 : c ∈ ((l.dropWhile jsWhitespaceB).reverse.dropWhile jsWhitespaceB) :=
    mem_dropWhile_of_not_p h2 hp
  rw [List.reverse_eq_nil_iff] at hnil
  rw [hnil] at h3
  cases h3

lemma jsTrim_ne_empty {s : String} (h : s.data.any (fun c => !jsWhitespaceB c) = true) :
    jsTrim s ≠ "" := by
  rw [List.any_eq_true] at h
  obtain ⟨c, hc, hpc⟩ := h
  rw [Bool.not_eq_true'] at hpc
  intro he
  exact trimList_ne_nil hc hpc (congrArg String.data he)

/-- C4 (amended): on a successful fetch, the title is the `trim()` of the
first non-empty candidate in the order og:title, twitter:title, document
title, hostname; on a failed fetch with a parseable URL it is the hostname
(with the first "www." removed in variant A).  It is non-empty whenever the
winning candidate contains a non-whitespace character, but, contrary to the
original claim, it can be empty: a whitespace-only candidate wins the chain
(non-empty strings are truthy) and the final `trim()` then empties it. -/
theorem title_fallback_amended :
    (∀ url p u m, parseURL url = some u → scrapeA url (.page p) = .ok m →
        m.title = jsTrim (scrapedTitle p u)) ∧
    (∀ url p u m, parseURL url = some u → scrapeB url (.page p) = .ok m →
        m.title = jsTrim (scrapedTitle p u)) ∧
    (∀ url u m, parseURL url = some u → scrapeA url .fetchError = .ok m →
        m.title = jsReplaceFirst u.hostname "www." "") ∧
    (∀ url u m, parseURL url = some u → scrapeB url .fetchError = .ok m →
        m.title = u.hostname) ∧
    (∀ p u, (scrapedTitle p u).data.any (fun c => !jsWhitespaceB c) = true →
        jsTrim (scrapedTitle p u) ≠ "") := by
  refine ⟨?_, ?_, ?_, ?_, ?_⟩
  · intro url p u m hu hm
    rw [scrapeA_page_eval p hu] at hm
    cases hm
    rfl
  · intro url p u m hu hm
    rw [scrapeB_page_eval p hu] at hm
    cases hm
    rfl
  · intro url u m hu hm
    rw [scrapeA_fetchError_eval hu] at hm
    cases hm
    rfl
  · intro url u m hu hm
    rw [scrapeB_fetchError_eval hu] at hm
    cases hm
    rfl
  · intro p u h
    exact jsTrim_ne_empty h

/-- C4 (counterexample): a page whose og:title is a single space yields an
empty title in both variants: the space wins the fallback chain (non-empty
strings are truthy) and the final `trim()` empties it, refuting "the title is
never empty". -/
theorem title_empty_cex :
    (scrapeA "https://example.com" (.page { emptyPage with ogTitle := " " })).map
      (fun m => m.title) = .ok "" ∧
    (scrapeB "https://example.com" (.page { emptyPage with ogTitle := " " })).map
      (fun m => m.title) = .ok "" := by
  refine ⟨by decide, by decide⟩

/-- Page with only an Open Graph title, used as a concrete witness input. -/
def pgHello : Page := { emptyPage with ogTitle := "Hello" }

/-- C4 (witness): the amended theorem applied at a concrete successful fetch
of https://example.com with og:title "Hello". -/
theorem title_fallback_witness :
    (({ url := "https://example.com", title := "Hello", description := "",
        image := "https://via.placeholder.com/400x200/f5f5f5/666666?text=example.com",
        success := true } : LinkMetadata)).title =
      jsTrim (scrapedTitle pgHello ⟨"https:", "example.com"⟩) ∧
    jsTrim (scrapedTitle pgHello ⟨"https:", "example.com"⟩) ≠ "" :=
  ⟨title_fallback_amended.1 "https://example.com" pgHello ⟨"https:", "example.com"⟩
      { url := "https://example.com", title := "Hello", description := "",
        image := "https://via.placeholder.com/400x200/f5f5f5/666666?text=example.com",
        success := true } (by decide) (by decide),
   title_fallback_amended.2.2.2.2 pgHello ⟨"https:", "example.com"⟩ (by decide)⟩

lemma dropWhile_ws_append_dots (l : List Char) :
    (l ++ ['.', '.', '.']).dropWhile jsWhitespaceB
      = l.dropWhile jsWhitespaceB ++ ['.', '.', '.'] := by
  induction l with
  | nil => rfl
  | cons a t ih =>
    rw [List.cons_append, List.dropWhile_cons, List.dropWhile_cons]
    split
    · exact ih
    · rfl

lemma dropWhile_ws_dot_cons (r : List Char) :
    List.dropWhile jsWhitespaceB ('.' :: r) = '.' :: r := rfl

lemma trimList_append_dots (l : List Char) :
    trimList (l ++ ['.', '.', '.']) = l.dropWhile jsWhitespaceB ++ ['.', '.', '.'] := by
  unfold trimList
  rw [dropWhile_ws_append_dots, List.reverse_append]
  rw [show (['.', '.', '.'] : List Char).reverse = ['.', '.', '.'] from rfl]
  simp only [List.cons_append, List.nil_append]
  rw [dropWhile_ws_dot_cons]
  rw [show ('.' :: '.' :: '.' :: (l.dropWhile jsWhitespaceB).reverse)
      = ['.', '.', '.'] ++ (l.dropWhile jsWhitespaceB).reverse from rfl]
  rw [List.reverse_append, List.reverse_reverse]
  rfl

lemma jsTrim_substr_dots (d : String) :
    jsTrim (jsSubstrTo d 200 ++ "...") =
      ⟨(d.data.take 200).dropWhile jsWhitespaceB ++ ['.', '.', '.']⟩ := by
  unfold jsTrim jsSubstrTo
  rw [show ((⟨d.data.take 200⟩ : String) ++ "...").data
      = d.data.take 200 ++ ['.', '.', '.'] from by rw [String.data_append]]
  rw [trimList_append_dots]

lemma descResultB_long {p : Page} (hlong : 200 < jsLen (descChain p)) :
    descResultB p = ⟨((descChain p).data.take 200).dropWhile jsWhitespaceB ++ ['.', '.', '.']⟩ := by
  unfold descResultB
  rw [if_pos hlong]
  exact jsTrim_substr_dots (descChain p)

lemma descResultA_long {p : Page} {url : String}
    (hgen : isGenericDescription (descChain p) url = false)
    (hlong : 200 < jsLen (descChain p)) :
    descResultA p url =
      ⟨((descChain p).data.take 200).dropWhile jsWhitespaceB ++ ['.', '.', '.']⟩ := by
  unfold descResultA
  rw [hgen]
  simp only [if_false, Bool.false_eq_true]
  have hne : descChain p ≠ "" := by
    intro he
    rw [he] at hlong
    simp [jsLen] at hlong
  rw [if_pos (by simp [hne, hlong])]
  exact jsTrim_substr_dots (descChain p)

lemma dropWhile_take_len {d : List Char} {c0 : Char}
    (hh : d.head? = some c0) (hc : jsWhitespaceB c0 = false)
    (hlong : 200 < d.length) :
    ((d.take 200).dropWhile jsWhitespaceB).length = 200 := by
  cases d with
  | nil => simp at hh
  | cons a t =>
    simp only [List.head?_cons, Option.some.injEq] at hh
    subst hh
    rw [show (200 : Nat) = 199 + 1 from rfl, List.take_succ_cons,
      List.dropWhile_cons, hc]
    simp only [Bool.false_eq_true, if_false, List.length_cons, List.length_take]
    simp only [List.length_cons] at hlong
    omega

/-- C5 (amended): when the extracted description is longer than 200
characters, the stored description is the left-whitespace-trim of its first
200 characters followed by "...": it always ends in the ellipsis marker, but
because `trim()` runs after truncation, the pre-ellipsis portion has length
at most 200, with equality exactly guaranteed when the description does not
start with whitespace — not always 200 as originally claimed.  Variant A
behaves the same once its generic-description filter passes. -/
theorem descTruncation_amended :
    (∀ url p u m, parseURL url = some u → scrapeB url (.page p) = .ok m →
      200 < jsLen (descChain p) →
      m.description = ⟨((descChain p).data.take 200).dropWhile jsWhitespaceB ++ ['.', '.', '.']⟩ ∧
      jsEndsWith m.description "..." = true ∧
      (((descChain p).data.take 200).dropWhile jsWhitespaceB).length ≤ 200 ∧
      (∀ c0, (descChain p).data.head? = some c0 → jsWhitespaceB c0 = false →
        (((descChain p).data.take 200).dropWhile jsWhitespaceB).length = 200)) ∧
    (∀ url p u m, parseURL url = some u → scrapeA url (.page p) = .ok m →
      isGenericDescription (descChain p) url = false →
      200 < jsLen (descChain p) →
      m.description = ⟨((descChain p).data.take 200).dropWhile jsWhitespaceB ++ ['.', '.', '.']⟩) := by
  constructor
  · intro url p u m hu hm hlong
    rw [scrapeB_page_eval p hu] at hm
    cases hm
    refine ⟨descResultB_long hlong, ?_, ?_, ?_⟩
    · rw [descResultB_long hlong]
      unfold jsEndsWith
      rw [show (⟨((descChain p).data.take 200).dropWhile jsWhitespaceB
          ++ ['.', '.', '.']⟩ : String).data
          = ((descChain p).data.take 200).dropWhile jsWhitespaceB ++ ['.', '.', '.'] from rfl]
      rw [List.reverse_append]
      rfl
    · calc (((descChain p).data.take 200).dropWhile jsWhitespaceB).length
          ≤ ((descChain p).data.take 200).length :=
            (List.dropWhile_sublist jsWhitespaceB).length_le
        _ ≤ 200 := by rw [List.length_take]; omega
    · intro c0 hh hc
      exact dropWhile_take_len hh hc hlong
  · intro url p u m hu hm hgen hlong
    rw [scrapeA_page_eval p hu] at hm
    cases hm
    exact descResultA_long hgen hlong

/-- Description of length 201 starting with a space. -/
def longDescCex : String := ⟨' ' :: List.replicate 200 'a'⟩

/-- C5 (counterexample): for this 201-character extracted description the
returned description ends in "..." but its pre-ellipsis portion has only 199
characters (not exactly 200): `trim()` runs after truncation and removes the
leading space. -/
theorem descTruncation_cex :
    jsLen longDescCex = 201 ∧
    (scrapeB "https://example.com"
        (.page { emptyPage with ogDescription := longDescCex })).map
      (fun m => m.description) = .ok ⟨List.replicate 199 'a' ++ ['.', '.', '.']⟩ ∧
    (List.replicate 199 'a' : List Char).length = 199 := by
  refine ⟨by decide, by decide, by decide⟩

/-- Description of 201 letters (no leading whitespace). -/
def longDescW : String := ⟨List.replicate 201 'a'⟩

/-- Page carrying the 201-letter description. -/
def pgLongW : Page := { emptyPage with ogDescription := longDescW }

/-- Metadata record produced for `pgLongW` by variant B. -/
def mLongW : LinkMetadata :=
  { url := "https://example.com", title := "example.com",
    description := ⟨List.replicate 200 'a' ++ ['.', '.', '.']⟩, image := "",
    success := true }

/-- C5 (witness): the amended theorem applied at a concrete fetch whose
description has 201 letters. -/
theorem descTruncation_witness :
    mLongW.description =
      ⟨((descChain pgLongW).data.take 200).dropWhile jsWhitespaceB ++ ['.', '.', '.']⟩ ∧
    jsEndsWith mLongW.description "..." = true ∧
    (((descChain pgLongW).data.take 200).dropWhile jsWhitespaceB).length ≤ 200 ∧
    (∀ c0, (descChain pgLongW).data.head? = some c0 → jsWhitespaceB c0 = false →
      (((descChain pgLongW).data.take 200).dropWhile jsWhitespaceB).length = 200) :=
  descTruncation_amended.1 "https://example.com" pgLongW ⟨"https:", "example.com"⟩
    mLongW (by decide) (by decide) (by decide)

lemma isPre_iff {p l : List Char} : isPre p l = true ↔ ∃ t, l = p ++ t := by
  induction p generalizing l with
  | nil => simp [isPre]
  | cons a ps ih =>
    cases l with
    | nil => simp [isPre]
    | cons c cs =>
      simp only [isPre, Bool.and_eq_true, beq_iff_eq, ih, List.cons_append,
        List.cons.injEq]
      constructor
      · rintro ⟨h1, t, h2⟩
        exact ⟨t, h1.symm, h2⟩
      · rintro ⟨t, h1, h2⟩
        exact ⟨h1.symm, t, h2⟩

/-- Force-https step of variant A (applied after absolutization). -/
def forceHttps (s : String) : String :=
  if s ≠ "" && jsStartsWith s "http://" then jsReplaceFirst s "http://" "https://" else s

lemma data_append (a b : String) : (a ++ b).data = a.data ++ b.data :=
  String.data_append a b

lemma startsWith_slash2_slash {s : String} (hx : jsStartsWith s "//" = true) :
    jsStartsWith s "/" = true := by
  obtain ⟨t, ht⟩ := isPre_iff.mp hx
  exact isPre_iff.mpr ⟨'/' :: t, by rw [ht]; rfl⟩

/-- C7 (amended): in variant A the normalization behaves as claimed —
protocol-relative references gain "https:", root-relative references are
resolved against the page origin, other relative references are joined to
the origin with a slash, references already starting with "http" are kept,
and in each case a resulting leading "http://" is rewritten to "https://".
In variant B, contrary to the claim, a protocol-relative reference gains the
page URL's protocol (so "http:" for an http page) and no http-to-https
rewrite exists at all. -/
theorem imageNormalization_amended :
    (∀ url u s, parseURL url = some u → jsStartsWith s "//" = true →
      normalizeImageA url (some s) = .ok (some ("https:" ++ s))) ∧
    (∀ url u s, parseURL url = some u → jsStartsWith s "/" = true →
      jsStartsWith s "//" = false →
      normalizeImageA url (some s) = .ok (some (forceHttps (u.origin ++ s)))) ∧
    (∀ url u s, parseURL url = some u → s ≠ "" → jsStartsWith s "/" = false →
      jsStartsWith s "http" = false →
      normalizeImageA url (some s) = .ok (some (forceHttps (u.origin ++ "/" ++ s)))) ∧
    (∀ url s, jsStartsWith s "http" = true →
      normalizeImageA url (some s) = .ok (some (forceHttps s))) ∧
    (∀ url u s, parseURL url = some u → jsStartsWith s "//" = true →
      normalizeImageB url s = .ok (u.protocol ++ s)) ∧
    (∀ url s, jsStartsWith s "http" = true → normalizeImageB url s = .ok s) := by
  refine ⟨?_, ?_, ?_, ?_, ?_, ?_⟩
  · intro url u s hu hs
    obtain ⟨t, ht⟩ := isPre_iff.mp hs
    obtain ⟨sd⟩ := s
    have ht2 : sd = '/' :: '/' :: t := ht
    subst ht2
    simp [normalizeImageA, jsStartsWith, isPre, hu, String.ext_iff, String.data_append]
  · intro url u s hu hs1 hs2
    obtain ⟨t, ht⟩ := isPre_iff.mp hs1
    obtain ⟨sd⟩ := s
    have ht2 : sd = '/' :: t := ht
    subst ht2
    simp only [jsStartsWith, isPre, beq_self_eq_true, Bool.true_and] at hs2
    simp [normalizeImageA, jsStartsWith, isPre, hu, hs2, forceHttps, apply_ite,
      String.ext_iff, String.data_append]
    split <;> intro h2 <;> simp_all
  · intro url u s hu hne hs1 hs2
    have hss : jsStartsWith s "//" = false := by
      cases hx : jsStartsWith s "//"
      · rfl
      · rw [startsWith_slash2_slash hx] at hs1
        cases hs1
    simp [normalizeImageA, hu, hne, hs1, hs2, hss, forceHttps, apply_ite]
    split <;> intro h2 <;> simp_all
  · intro url s hs
    have hne : s ≠ "" := by
      obtain ⟨t, ht⟩ := isPre_iff.mp hs
      intro he
      rw [he] at ht
      cases ht
    simp [normalizeImageA, hs, hne, forceHttps, apply_ite]
    split <;> intro h2 <;> simp_all
  · intro url u s hu hs
    obtain ⟨t, ht⟩ := isPre_iff.mp hs
    obtain ⟨sd⟩ := s
    have ht2 : sd = '/' :: '/' :: t := ht
    subst ht2
    simp [normalizeImageB, jsStartsWith, isPre, hu, String.ext_iff]
  · intro url s hs
    simp [normalizeImageB, hs]

/-- C7 (counterexample): variant B gives a protocol-relative og:image the
page's protocol — not "https:" — and has no http-to-https rewrite, so for an
http page the stored image URL starts with "http://", refuting the claim for
the second copy of the code. -/
theorem imageNormalization_variantB_cex :
    (scrapeB "http://example.com"
        (.page { emptyPage with ogImage := "//cdn.example.org/pic.png" })).map
      (fun m => m.image) = .ok "http://cdn.example.org/pic.png" ∧
    jsStartsWith "http://cdn.example.org/pic.png" "https:" = false ∧
    jsStartsWith "http://cdn.example.org/pic.png" "http://" = true := by
  refine ⟨by decide, by decide, by decide⟩

/-- C7 (witness): the amended theorem applied at concrete inputs, one per
variant. -/
theorem imageNormalization_witness :
    normalizeImageA "https://example.com" (some "/a.png") =
      .ok (some (forceHttps ((⟨"https:", "example.com"⟩ : URLParts).origin ++ "/a.png"))) ∧
    normalizeImageB "http://example.com" "//cdn.example.org/pic.png" =
      .ok ((⟨"http:", "example.com"⟩ : URLParts).protocol ++ "//cdn.example.org/pic.png") :=
  ⟨imageNormalization_amended.2.1 "https://example.com" ⟨"https:", "example.com"⟩ "/a.png"
      (by decide) (by decide) (by decide),
   imageNormalization_amended.2.2.2.2.1 "http://example.com" ⟨"http:", "example.com"⟩
      "//cdn.example.org/pic.png" (by decide) (by decide)⟩

/-- Collection as produced by the link-list parser: display name, slug
derived from the name, ordered links. -/
structure Collection where
  name : String
  slug : String
  links : List String
deriving DecidableEq, Repr

/-- Collection with its fetched metadata attached (the
`collection.metadata = metadata` assignment in build). -/
structure BuiltCollection where
  name : String
  slug : String
  links : List String
  metadata : List LinkMetadata
deriving DecidableEq, Repr

/-- Collection part of a built collection. -/
def BuiltCollection.toCollection (b : BuiltCollection) : Collection :=
  ⟨b.name, b.slug, b.links⟩

/-- Protocol-and-www strip of variant A's display URL (the
`replace(^https?://(www\.)?, '')` step, written out for the two protocol
prefixes the regexp can match). -/
def stripProtocolWww (url : String) : String :=
  if jsStartsWith url "https://" then
    if jsStartsWith (⟨url.data.drop 8⟩ : String) "www." then ⟨url.data.drop 12⟩
    else ⟨url.data.drop 8⟩
  else if jsStartsWith url "http://" then
    if jsStartsWith (⟨url.data.drop 7⟩ : String) "www." then ⟨url.data.drop 11⟩
    else ⟨url.data.drop 7⟩
  else url

/-- Display form of a link URL in variant A's cards: protocol and leading
"www." stripped, then a single trailing slash stripped. -/
def displayUrl (url : String) : String :=
  let r := stripProtocolWww url
  if jsEndsWith r "/" then ⟨r.data.dropLast⟩ else r

/-- YouTube-link test of variant A's renderer. -/
def isYouTube (url : String) : Bool :=
  jsIncludes url "youtube.com" || jsIncludes url "youtu.be"

/-- Concatenation of a list of strings (JS `join('')`). -/
def concatAll : List String → String
  | [] => ""
  | s :: rest => s ++ concatAll rest

/-- Fixed text segments of variant A's card template, split at the
interpolation points. -/
def cardASeg1 : String := "\n    <a href=\""
def cardASeg2 : String := "\" target=\"_blank\" rel=\"noopener noreferrer\" class=\"card\">\n      <div class=\"card-image\" style=\"background-image: url("
def cardASeg3 : String := ")\"></div>\n      <div class=\"card-content\">\n        <h3 class=\"card-title\">"
def cardASeg4 : String := "</h3>\n        "
def cardASeg5 : String := "<p class=\"card-url\">"
def cardASeg6 : String := "</p>"
def cardASeg7 : String := "\n      </div>\n    </a>\n  "

/-- One card of variant A's collection page (the body of the cards map):
href and image URL are interpolated raw; title and display URL pass through
escapeHtml; the display-URL paragraph is omitted for YouTube links. -/
def cardA (meta : LinkMetadata) : String :=
  cardASeg1 ++ meta.url ++ cardASeg2 ++ aposStr ++ meta.image ++ aposStr ++ cardASeg3
    ++ escapeHtml meta.title ++ cardASeg4
    ++ (if !isYouTube meta.url then cardASeg5 ++ escapeHtml (displayUrl meta.url) ++ cardASeg6
        else "")
    ++ cardASeg7

/-- Fixed text segments of variant B's card template. -/
def cardBSeg1 : String := "\n    <a href=\""
def cardBSeg2 : String := "\" target=\"_blank\" rel=\"noopener noreferrer\" class=\"card\">\n      "
def cardBImgSeg1 : String := "<div class=\"card-image\" style=\"background-image: url("
def cardBImgSeg2 : String := ")\"></div>"
def cardBNoImg : String := "<div class=\"card-image card-no-image\"></div>"
def cardBSeg3 : String := "\n      <div class=\"card-content\">\n        <h3 class=\"card-title\">"
def cardBSeg4 : String := "</h3>\n        "
def cardBDescSeg1 : String := "<p class=\"card-description\">"
def cardBDescSeg2 : String := "</p>"
def cardBSeg5 : String := "\n      </div>\n    </a>\n  "

/-- One card of variant B's collection page: href and image URL interpolated
raw; title and description escaped; description paragraph only when the
description is non-empty (truthy). -/
def cardB (meta : LinkMetadata) : String :=
  cardBSeg1 ++ meta.url ++ cardBSeg2
    ++ (if meta.image ≠ "" then cardBImgSeg1 ++ aposStr ++ meta.image ++ aposStr ++ cardBImgSeg2
        else cardBNoImg)
    ++ cardBSeg3 ++ escapeHtml meta.title ++ cardBSeg4
    ++ (if meta.description ≠ "" then cardBDescSeg1 ++ escapeHtml meta.description ++ cardBDescSeg2
        else "")
    ++ cardBSeg5

/-- Fixed shell of the collection page template (variant A), split at the two
collection-name interpolations and the cards interpolation. -/
def pageShellA1 : String := "<!DOCTYPE html>\n<html lang=\"en\">\n<head>\n  <meta charset=\"UTF-8\">\n  <meta name=\"viewport\" content=\"width=device-width, initial-scale=1.0\">\n  <title>"
def pageShellA2 : String := "</title>\n  <link rel=\"stylesheet\" href=\"style.css\">\n</head>\n<body>\n  <div class=\"container\">\n    <header>\n      <a href=\"index.html\" class=\"back-link\">← Back to Collections</a>\n      <h1>"
def pageShellA3 : String := "</h1>\n    </header>\n    \n    <div class=\"cards-grid\">\n      "
def pageShellA4 : String := "\n    </div>\n  </div>\n</body>\n</html>"

/-- Variant B's shell differs only in the (mis-encoded) back-link arrow. -/
def pageShellB2 : String := "</title>\n  <link rel=\"stylesheet\" href=\"style.css\">\n</head>\n<body>\n  <div class=\"container\">\n    <header>\n      <a href=\"index.html\" class=\"back-link\">‚Üê Back to Collections</a>\n      <h1>"

/-- generateCollectionPage from variant A: the collection name is
interpolated raw into the title element and the heading; each metadata
record yields one card. -/
def generateCollectionPageA (collection : Collection)
    (allMetadata : List LinkMetadata) : String :=
  pageShellA1 ++ collection.name ++ pageShellA2 ++ collection.name ++ pageShellA3
    ++ concatAll (allMetadata.map cardA) ++ pageShellA4

/-- generateCollectionPage from variant B. -/
def generateCollectionPageB (collection : Collection)
    (allMetadata : List LinkMetadata) : String :=
  pageShellA1 ++ collection.name ++ pageShellB2 ++ collection.name ++ pageShellA3
    ++ concatAll (allMetadata.map cardB) ++ pageShellA4

/-- Fixed text segments of the home page template (identical in both
variants). -/
def homeShell1 : String := "<!DOCTYPE html>\n<html lang=\"en\">\n<head>\n  <meta charset=\"UTF-8\">\n  <meta name=\"viewport\" content=\"width=device-width, initial-scale=1.0\">\n  <title>Resource Collections</title>\n  <link rel=\"stylesheet\" href=\"style.css\">\n</head>\n<body>\n  <div class=\"container\">\n    <header>\n      <h1>Resource Collections</h1>\n    </header>\n    \n    <div class=\"collections-list\">\n      "
def homeShell2 : String := "\n    </div>\n  </div>\n</body>\n</html>"
def homeEntrySeg1 : String := "\n        <a href=\""
def homeEntrySeg2 : String := ".html\" class=\"collection-link\">\n          <h2>"
def homeEntrySeg3 : String := "</h2>\n          <span class=\"link-count\">"
def homeEntrySeg4 : String := " resources</span>\n        </a>\n      "

/-- One entry of the home page's collections list. -/
def homeEntry (col : Collection) : String :=
  homeEntrySeg1 ++ col.slug ++ homeEntrySeg2 ++ col.name ++ homeEntrySeg3
    ++ toString col.links.length ++ homeEntrySeg4

/-- generateHomePage from src/build.js (identical in both variants). -/
def generateHomePage (collections : List Collection) : String :=
  homeShell1 ++ concatAll (collections.map homeEntry) ++ homeShell2

/-- Occurrence count of a character in a string. -/
def countChar (c : Char) (s : String) : Nat := s.data.count c

lemma countChar_append (c : Char) (a b : String) :
    countChar c (a ++ b) = countChar c a + countChar c b := by
  unfold countChar
  rw [String.data_append, List.count_append]

lemma countChar_concatAll (c : Char) (ls : List String) :
    countChar c (concatAll ls) = (ls.map (fun s => countChar c s)).sum := by
  induction ls with
  | nil => rfl
  | cons a t ih =>
    rw [show concatAll (a :: t) = a ++ concatAll t from rfl, countChar_append, ih]
    rfl

lemma countChar_escapeHtml_lt (s : String) : countChar '<' (escapeHtml s) = 0 := by
  unfold countChar
  rw [List.count_eq_zero]
  intro hmem
  have hall := flatMap_escChar_no_bad s.data
  rw [List.all_eq_true] at hall
  have hx := hall '<' hmem
  simp at hx

lemma not_mem_of_countChar_zero {c : Char} {s : String} (h : countChar c s = 0) :
    c ∉ s.data := by
  unfold countChar at h
  rw [List.count_eq_zero] at h
  exact h

lemma mem_stripProtocolWww {x : Char} {url : String}
    (h : x ∈ (stripProtocolWww url).data) : x ∈ url.data := by
  unfold stripProtocolWww at h
  repeat' split at h
  all_goals first
    | exact List.drop_subset _ _ h
    | exact h

lemma mem_displayUrl {x : Char} {url : String}
    (h : x ∈ (displayUrl url).data) : x ∈ url.data := by
  unfold displayUrl at h
  dsimp only at h
  split at h
  · exact mem_stripProtocolWww (List.dropLast_subset _ h)
  · exact mem_stripProtocolWww h

lemma countChar_displayUrl_lt {url : String} (h : countChar '<' url = 0) :
    countChar '<' (displayUrl url) = 0 := by
  unfold countChar
  rw [List.count_eq_zero]
  intro hmem
  exact not_mem_of_countChar_zero h (mem_displayUrl hmem)

lemma countChar_zero_iff {c : Char} {s : String} :
    countChar c s = 0 ↔ c ∉ s.data := by
  unfold countChar
  exact List.count_eq_zero

/-- C1 (amended): per card, the title and (variant A) display URL or
(variant B) description are HTML-escaped, so they can never contribute a
markup character: when the raw-interpolated url and image fields are free of
the character `<`, the card contains exactly its fixed template tags (8, plus
2 when variant A shows the URL paragraph or variant B shows the description).
At page level the count decomposes into the 22 template tags, the cards, and
two raw copies of the collection name — so collection names (and urls and
image URLs), contrary to the claim, are interpolated without escaping and can
inject markup. -/
theorem collectionPage_escapes_amended :
    (∀ m : LinkMetadata, countChar '<' m.url = 0 → countChar '<' m.image = 0 →
      countChar '<' (cardA m) = if isYouTube m.url then 8 else 10) ∧
    (∀ m : LinkMetadata, countChar '<' m.url = 0 → countChar '<' m.image = 0 →
      countChar '<' (cardB m) = if m.description = "" then 8 else 10) ∧
    (∀ c metas, countChar '<' (generateCollectionPageA c metas)
      = 22 + 2 * countChar '<' c.name
        + (metas.map (fun m => countChar '<' (cardA m))).sum) ∧
    (∀ c metas, countChar '<' (generateCollectionPageB c metas)
      = 22 + 2 * countChar '<' c.name
        + (metas.map (fun m => countChar '<' (cardB m))).sum) := by
  refine ⟨?_, ?_, ?_, ?_⟩
  · intro m hu hi
    by_cases hyt : isYouTube m.url
    · simp [cardA, hyt, countChar_append, hu, hi, countChar_escapeHtml_lt]
      decide
    · simp [cardA, hyt, countChar_append, hu, hi, countChar_escapeHtml_lt,
        countChar_displayUrl_lt hu]
      decide
  · intro m hu hi
    by_cases himg : m.image = "" <;> by_cases hdesc : m.description = "" <;>
      simp [cardB, himg, hdesc, countChar_append, hu, hi, countChar_escapeHtml_lt] <;>
      decide
  · intro c metas
    simp only [generateCollectionPageA, countChar_append, countChar_concatAll]
    have h1 : countChar '<' pageShellA1 = 6 := by decide
    have h2 : countChar '<' pageShellA2 = 9 := by decide
    have h3 : countChar '<' pageShellA3 = 3 := by decide
    have h4 : countChar '<' pageShellA4 = 4 := by decide
    rw [h1, h2, h3, h4]
    simp only [List.map_map, Function.comp_def]
    omega
  · intro c metas
    simp only [generateCollectionPageB, countChar_append, countChar_concatAll]
    have h1 : countChar '<' pageShellA1 = 6 := by decide
    have h2 : countChar '<' pageShellB2 = 9 := by decide
    have h3 : countChar '<' pageShellA3 = 3 := by decide
    have h4 : countChar '<' pageShellA4 = 4 := by decide
    rw [h1, h2, h3, h4]
    simp only [List.map_map, Function.comp_def]
    omega

/-- Metadata record whose URL embeds a script tag (as could arrive from the
hand-authored links file or a redirect). -/
def evilMeta : LinkMetadata :=
  { url := "https://evil.example/<script>alert(1)</script>", title := "t",
    description := "", image := "x", success := true }

/-- C1 (counterexample): a rendered collection page can contain a literal
unescaped `<script>`: variant A interpolates the link URL raw into the card
href, and both variants interpolate the collection name raw into the title
and heading — refuting the claim that every interpolated piece of text
(titles, descriptions, URLs, collection names) is HTML-escaped. -/
theorem collectionPage_unescaped_cex :
    hasSub (generateCollectionPageA ⟨"T", "t", []⟩ [evilMeta]).data "<script>".data = true ∧
    hasSub (generateCollectionPageB ⟨"<script>alert(1)</script>", "scriptalert1script", []⟩ []).data
      "<script>".data = true := by
  refine ⟨by decide, by decide⟩

/-- Benign metadata record with a markup-bearing title, for the witness. -/
def mWitC1 : LinkMetadata :=
  { url := "https://example.com/a", title := "<script>x", description := "",
    image := "https://example.com/i.png", success := true }

/-- C1 (witness): the amended theorem applied at a concrete record whose
title contains `<script>` — the card still holds exactly its 10 template
tags, the escaped title adding none. -/
theorem collectionPage_escapes_witness :
    countChar '<' (cardA mWitC1) = (if isYouTube mWitC1.url then 8 else 10) :=
  collectionPage_escapes_amended.1 mWitC1 (by decide) (by decide)

/-- Sequencing of fallible computations over a list, mirroring the
await-and-push loop of build(); the first uncaught exception aborts the
pass (and hence the whole build). -/
def exMapM {α β : Type} (f : α → Except Unit β) : List α → Except Unit (List β)
  | [] => .ok []
  | a :: as =>
    match f a with
    | .error e => .error e
    | .ok b =>
      match exMapM f as with
      | .error e => .error e
      | .ok bs => .ok (b :: bs)

/-- The fetch pass of build(): for each collection in order, scrape each of
its links in order and attach the resulting metadata sequence; an uncaught
exception aborts the pass.  `scrape` is instantiated with scrapeA or scrapeB
applied to a fetch-outcome oracle. -/
def runFetchPass (scrape : String → Except Unit LinkMetadata) :
    List Collection → Except Unit (List BuiltCollection)
  | [] => .ok []
  | c :: rest =>
    match exMapM scrape c.links with
    | .error e => .error e
    | .ok md =>
      match runFetchPass scrape rest with
      | .error e => .error e
      | .ok bs => .ok (⟨c.name, c.slug, c.links, md⟩ :: bs)

lemma scrapeTryA_ok_url {url : String} {p : Page} {m : LinkMetadata}
    (h : scrapeTryA url p = .ok m) : m.url = url := by
  unfold scrapeTryA at h
  repeat' first
    | split at h
    | dsimp only at h
  all_goals cases h
  all_goals rfl

lemma scrapeTryB_ok_url {url : String} {p : Page} {m : LinkMetadata}
    (h : scrapeTryB url p = .ok m) : m.url = url := by
  unfold scrapeTryB at h
  repeat' first
    | split at h
    | dsimp only at h
  all_goals cases h
  all_goals rfl

lemma scrapeA_ok_url {url : String} {o : FetchOutcome} {m : LinkMetadata}
    (h : scrapeA url o = .ok m) : m.url = url := by
  unfold scrapeA at h
  cases o with
  | fetchError =>
    dsimp only at h
    split at h
    · cases h
    · cases h
      rfl
  | page p =>
    dsimp only at h
    cases htry : scrapeTryA url p with
    | ok m2 =>
      rw [htry] at h
      cases h
      exact scrapeTryA_ok_url htry
    | error e =>
      rw [htry] at h
      dsimp only at h
      split at h
      · cases h
      · cases h
        rfl

lemma scrapeB_ok_url {url : String} {o : FetchOutcome} {m : LinkMetadata}
    (h : scrapeB url o = .ok m) : m.url = url := by
  unfold scrapeB at h
  cases o with
  | fetchError =>
    dsimp only at h
    split at h
    · cases h
    · cases h
      rfl
  | page p =>
    dsimp only at h
    cases htry : scrapeTryB url p with
    | ok m2 =>
      rw [htry] at h
      cases h
      exact scrapeTryB_ok_url htry
    | error e =>
      rw [htry] at h
      dsimp only at h
      split at h
      · cases h
      · cases h
        rfl

lemma exMapM_spec {α β : Type} {f : α → Except Unit β} (g : β → α)
    (hf : ∀ a b, f a = .ok b → g b = a) :
    ∀ {l : List α} {r : List β}, exMapM f l = .ok r →
      r.length = l.length ∧ r.map g = l := by
  intro l
  induction l with
  | nil =>
    intro r h
    cases h
    exact ⟨rfl, rfl⟩
  | cons a t ih =>
    intro r h
    unfold exMapM at h
    split at h
    · cases h
    · next b hfa =>
      split at h
      · cases h
      · next bs hrec =>
        cases h
        obtain ⟨ih1, ih2⟩ := ih hrec
        exact ⟨by simp [ih1], by simp [List.map_cons, ih2, hf a b hfa]⟩

lemma runFetchPass_spec {scrape : String → Except Unit LinkMetadata}
    (hs : ∀ url m, scrape url = .ok m → m.url = url) :
    ∀ {cs : List Collection} {res : List BuiltCollection},
      runFetchPass scrape cs = .ok res →
      res.map BuiltCollection.toCollection = cs ∧
      ∀ b ∈ res, b.metadata.length = b.links.length ∧
        b.metadata.map (fun m => m.url) = b.links := by
  intro cs
  induction cs with
  | nil =>
    intro res h
    cases h
    exact ⟨rfl, fun b hb => absurd hb (List.not_mem_nil b)⟩
  | cons c t ih =>
    intro res h
    unfold runFetchPass at h
    split at h
    · cases h
    · next md hmd =>
      split at h
      · cases h
      · next bs hbs =>
        cases h
        obtain ⟨ih1, ih2⟩ := ih hbs
        obtain ⟨hlen, hmap⟩ :=
          exMapM_spec (fun m => m.url) (fun a bb hab => hs a bb hab) hmd
        constructor
        · rw [List.map_cons, ih1]
          rfl
        · intro b hb
          rcases List.mem_cons.mp hb with hb1 | hb1
          · subst hb1
            exact ⟨hlen, hmap⟩
          · exact ih2 b hb1

/-- C3 (confirmed): when the fetch pass completes (no scrape threw), it
returns the same collections in order, each carrying exactly one metadata
record per link in the same position — the record's url field is the link —
regardless of which fetches failed (failures yield fallback records, not
missing entries).  Holds for both variants. -/
theorem fetchPass_one_record_per_link (oracle : String → FetchOutcome)
    (cs : List Collection) (res : List BuiltCollection)
    (h : runFetchPass (fun u => scrapeA u (oracle u)) cs = .ok res ∨
         runFetchPass (fun u => scrapeB u (oracle u)) cs = .ok res) :
    res.map BuiltCollection.toCollection = cs ∧
    ∀ b ∈ res, b.metadata.length = b.links.length ∧
      b.metadata.map (fun m => m.url) = b.links := by
  rcases h with h | h
  · exact runFetchPass_spec (fun url m hm => scrapeA_ok_url hm) h
  · exact runFetchPass_spec (fun url m hm => scrapeB_ok_url hm) h

/-- Fallback record produced by variant B for https://example.com. -/
def fbExample : LinkMetadata :=
  { url := "https://example.com", title := "example.com", description := "",
    image := "", success := false }

/-- C3 (witness): the theorem applied to one collection with one link whose
fetch fails. -/
theorem fetchPass_one_record_per_link_witness :
    ([⟨"Media", "media", ["https://example.com"], [fbExample]⟩] : List BuiltCollection).map
        BuiltCollection.toCollection = [⟨"Media", "media", ["https://example.com"]⟩] ∧
    ∀ b ∈ ([⟨"Media", "media", ["https://example.com"], [fbExample]⟩] : List BuiltCollection),
      b.metadata.length = b.links.length ∧ b.metadata.map (fun m => m.url) = b.links :=
  fetchPass_one_record_per_link (fun _ => .fetchError)
    [⟨"Media", "media", ["https://example.com"]⟩]
    [⟨"Media", "media", ["https://example.com"], [fbExample]⟩]
    (Or.inr (by decide))

/-- Write sequence of build()'s output phase (variant A): the index page,
then one page per collection at `dist/<slug>.html` in collection order, then
the stylesheet copy (content passed in, as the stylesheet is a separate
asset). -/
def buildWritesA (css : String) (cols : List BuiltCollection) : List (String × String) :=
  ("dist/index.html", generateHomePage (cols.map BuiltCollection.toCollection)) ::
    (cols.map (fun c => ("dist/" ++ c.slug ++ ".html",
        generateCollectionPageA c.toCollection c.metadata))
      ++ [("dist/style.css", css)])

/-- Content stored at a path after a sequence of file writes: the last write
to that path wins (each writeFileSync replaces the file). -/
def finalContent (writes : List (String × String)) (name : String) : Option String :=
  ((writes.filter (fun w => w.1 == name)).map (fun w => w.2)).getLast?

/-- Built collections for the colliding names "Tools" and "Tools!". -/
def bcTools : BuiltCollection := ⟨"Tools", slugify "Tools", [], []⟩
def bcToolsBang : BuiltCollection := ⟨"Tools!", slugify "Tools!", [], []⟩

/-- C9 (confirmed): slugify is not injective — "Tools" and "Tools!" share
the slug "tools" — so the build writes both collection pages to
dist/tools.html and the later write silently replaces the earlier
collection's (different) page. -/
theorem slug_collision_overwrite :
    slugify "Tools" = "tools" ∧ slugify "Tools!" = "tools" ∧
    ("Tools" : String) ≠ "Tools!" ∧
    (buildWritesA "" [bcTools, bcToolsBang]).map (fun w => w.1)
      = ["dist/index.html", "dist/tools.html", "dist/tools.html", "dist/style.css"] ∧
    finalContent (buildWritesA "" [bcTools, bcToolsBang]) "dist/tools.html"
      = some (generateCollectionPageA bcToolsBang.toCollection []) ∧
    generateCollectionPageA bcTools.toCollection []
      ≠ generateCollectionPageA bcToolsBang.toCollection [] := by
  refine ⟨by decide, by decide, by decide, by decide, by decide, by decide⟩
